import Mathlib

/-!
Verification of the upload-validation and result-normalization pipeline of the
Meeting Summarizer repository.

The client-side validation logic is embedded from
`src/FrontEnd/src/App.jsx` (`handleFileChange`, `handleUpload` and the
response handling). JavaScript strings are modelled as `List Char`;
`String.prototype.toLowerCase` is modelled character-wise on the ASCII range,
`String.prototype.lastIndexOf` and `String.prototype.substring` (with its
clamping of negative indices to 0) are modelled directly.
-/

namespace MeetingSummarizer

/-- ASCII lowering of one character, as JavaScript `toLowerCase` acts on the
ASCII range: uppercase letters are shifted by 32, every other character is
unchanged. -/
def lowerChar (c : Char) : Char :=
  if 65 ≤ c.toNat ∧ c.toNat ≤ 90 then Char.ofNat (c.toNat + 32) else c

/-- Index of the last occurrence of `c` in a character list, mirroring
JavaScript `lastIndexOf` (which returns -1 when absent, modelled as `none`). -/
def lastIndexOf (c : Char) : List Char → Option Nat
  | [] => none
  | x :: xs =>
    match lastIndexOf c xs with
    | some i => some (i + 1)
    | none => if x = c then some 0 else none

/-- `fileName.substring(fileName.lastIndexOf('.'))` from `handleFileChange`:
when a dot is present this keeps the suffix starting at the last dot
(dot included); when no dot is present, `lastIndexOf` is -1 and JavaScript
`substring` clamps it to 0, returning the whole string. -/
def jsFileExtension (fileName : List Char) : List Char :=
  match lastIndexOf '.' fileName with
  | some i => fileName.drop i
  | none => fileName

/-- The `allowedExtensions` array of `handleFileChange`. -/
def allowedExtensions : List (List Char) :=
  [ ['.', 'm', 'p', '3'], ['.', 'w', 'a', 'v'],
    ['.', 'm', '4', 'a'], ['.', 'f', 'l', 'a', 'c'] ]

/-- A selected file as the client sees it: `name` and `size` (bytes). -/
structure AudioFile where
  name : List Char
  size : Nat
deriving DecidableEq, Repr

/-- `25 * 1024 * 1024`, the size bound of `handleFileChange`. -/
def sizeLimit : Nat := 25 * 1024 * 1024

/-- The error message for a disallowed extension in `handleFileChange`. -/
def unsupportedMsg : String := "Please select MP3, WAV, M4A, or FLAC files only"

/-- The error message for an oversize file in `handleFileChange`. -/
def tooLargeMsg : String := "File too large. Maximum size is 25MB"

/-- The error message of `handleUpload` when no file is selected. -/
def noFileMsg : String := "Please select an audio file"

/-- The body the client receives from `POST /api/upload` (the parts the client
inspects: the `success` flag and the optional `error` message; a missing or
empty `error` string is falsy in the JavaScript `||` default). -/
structure ClientResponse where
  success : Bool
  error : Option String
deriving DecidableEq, Repr

/-- The React component state of `App`: `file`, `loading`, `result`, `error`. -/
structure AppState where
  file : Option AudioFile
  loading : Bool
  result : Option ClientResponse
  error : String
deriving DecidableEq, Repr

/-- The initial component state: `useState(null)`, `useState(false)`,
`useState(null)`, and `useState` of the empty string. -/
def initState : AppState :=
  { file := none, loading := false, result := none, error := "" }

/-- `handleFileChange` from App.jsx: if a file is selected, lowercase its
name, take the substring from the last dot, check membership in
`allowedExtensions`, then check the 25 MB size bound; on failure set the
error and clear the file, on success store the file and clear the error. -/
def handleFileChange (st : AppState) (selectedFile : Option AudioFile) : AppState :=
  match selectedFile with
  | none => st
  | some f =>
    let fileName := f.name.map lowerChar
    let fileExtension := jsFileExtension fileName
    if fileExtension ∉ allowedExtensions then
      { st with error := unsupportedMsg, file := none }
    else if f.size > sizeLimit then
      { st with error := tooLargeMsg, file := none }
    else
      { st with file := some f, error := "" }

/-- The start of `handleUpload`: with no file it only sets the error; with a
file it enters the loading state (`setLoading(true)`, `setError` cleared,
`setResult(null)`) and issues the `POST /api/upload` call carrying the file,
returned as the second component. -/
def handleUploadStart (st : AppState) : AppState × Option AudioFile :=
  match st.file with
  | none => ({ st with error := noFileMsg }, none)
  | some f =>
    ({ st with loading := true, error := "", result := none }, some f)

/-- JavaScript `x || d` on the string `x`: both `undefined` and the empty
string fall through to the default. -/
def jsOrElse (s : Option String) (d : String) : String :=
  match s with
  | some t => if t = "" then d else t
  | none => d

/-- The response handling of `handleUpload` (lines 57-66): on
`response.data.success` store the body as the result; otherwise set the error
to `response.data.error`, defaulting to "Processing failed" when that is
absent or empty; `finally` clears loading. -/
def handleUploadResponse (st : AppState) (resp : ClientResponse) : AppState :=
  let st' :=
    if resp.success then { st with result := some resp }
    else { st with error := jsOrElse resp.error "Processing failed" }
  { st' with loading := false }

/-- The full client flow of one upload click that receives a response:
`handleUploadStart` followed, when a call was made, by
`handleUploadResponse` on the body. -/
def handleUpload (st : AppState) (resp : ClientResponse) : AppState :=
  let (st', call) := handleUploadStart st
  match call with
  | none => st'
  | some _ => handleUploadResponse st' resp

/-- Reason codes of the Gatekeeper's `Rejected` verdict (spec §3-§4.1),
matched to the three client error paths. -/
inductive RejectReason
  | UnsupportedFormat
  | TooLarge
  | NoFileProvided
deriving DecidableEq, Repr

/-- A validation verdict: `Accepted` or `Rejected` with a reason (spec §3). -/
inductive Verdict
  | Accepted
  | Rejected (reason : RejectReason)
deriving DecidableEq, Repr

/-- The verdict the client code reaches on a selection: no file selected means
`handleUpload` refuses with `noFileMsg` (NoFileProvided); for a selected file
`handleFileChange` checks the extension first, then the size. This is the
branch structure of `handleFileChange`/`handleUpload`; the lemmas
`verdict_handleFileChange_*` and `verdict_handleUploadStart_none` below tie
each branch back to those functions. -/
def gatekeeperVerdict : Option AudioFile → Verdict
  | none => .Rejected .NoFileProvided
  | some f =>
    if jsFileExtension (f.name.map lowerChar) ∉ allowedExtensions then
      .Rejected .UnsupportedFormat
    else if f.size > sizeLimit then
      .Rejected .TooLarge
    else
      .Accepted

theorem verdict_handleFileChange_accepted (st : AppState) (f : AudioFile) :
    gatekeeperVerdict (some f) = .Accepted ↔
      handleFileChange st (some f) = { st with file := some f, error := "" } := by
  unfold gatekeeperVerdict handleFileChange
  by_cases hext : jsFileExtension (f.name.map lowerChar) ∉ allowedExtensions
  · simp only [hext, if_pos, ite_true]
    constructor
    · intro h; cases h
    · intro h
      have := congrArg AppState.error h
      simp [unsupportedMsg] at this
  · by_cases hsz : f.size > sizeLimit
    · simp only [hext, ite_false, hsz, ite_true]
      constructor
      · intro h; cases h
      · intro h
        have := congrArg AppState.error h
        simp [tooLargeMsg] at this
    · simp [hext, hsz]

theorem verdict_handleFileChange_unsupported (st : AppState) (f : AudioFile) :
    gatekeeperVerdict (some f) = .Rejected .UnsupportedFormat ↔
      handleFileChange st (some f) = { st with error := unsupportedMsg, file := none } := by
  unfold gatekeeperVerdict handleFileChange
  by_cases hext : jsFileExtension (f.name.map lowerChar) ∉ allowedExtensions
  · simp [hext]
  · by_cases hsz : f.size > sizeLimit
    · simp only [hext, ite_false, hsz, ite_true]
      constructor
      · intro h; cases h
      · intro h
        have := congrArg AppState.error h
        simp [unsupportedMsg, tooLargeMsg] at this
    · simp only [hext, ite_false, hsz]
      constructor
      · intro h; cases h
      · intro h
        have := congrArg AppState.file h
        simp at this

theorem verdict_handleUploadStart_none (st : AppState) (h : st.file = none) :
    handleUploadStart st = ({ st with error := noFileMsg }, none) := by
  unfold handleUploadStart
  rw [h]

/-- The characters after the last `'.'` of a list; meaningful when a dot is
present (the spec's reading of "the substring after the last `.`"). -/
def afterLastDot : List Char → List Char
  | [] => []
  | c :: cs => if '.' ∈ cs then afterLastDot cs else if c = '.' then cs else []

/-- The spec's allowed-extension set `{mp3, wav, m4a, flac}` (without the
leading dot, as the spec phrases it). -/
def specAllowedNames : List (List Char) :=
  [ ['m', 'p', '3'], ['w', 'a', 'v'], ['m', '4', 'a'], ['f', 'l', 'a', 'c'] ]

theorem lastIndexOf_eq_none_iff (c : Char) :
    (l : List Char) → (lastIndexOf c l = none ↔ c ∉ l)
  | [] => by simp [lastIndexOf]
  | x :: xs => by
    have ih := lastIndexOf_eq_none_iff c xs
    simp only [lastIndexOf]
    cases h : lastIndexOf c xs with
    | some i =>
      rw [h] at ih
      have hmem : c ∈ xs := by
        by_contra hn
        exact absurd (ih.mpr hn) (by simp)
      simp [List.mem_cons, hmem]
    | none =>
      rw [h] at ih
      have hn : c ∉ xs := ih.mp rfl
      by_cases hx : x = c
      · subst hx
        simp
      · simp only [hx, ite_false, List.mem_cons, true_iff]
        intro hc
        rcases hc with hc | hc
        · exact hx hc.symm
        · exact hn hc

theorem jsFileExtension_of_mem :
    (l : List Char) → '.' ∈ l → jsFileExtension l = '.' :: afterLastDot l
  | [], h => by cases h
  | x :: xs, h => by
    by_cases hxs : '.' ∈ xs
    · have ih := jsFileExtension_of_mem xs hxs
      have hsome : ∃ i, lastIndexOf '.' xs = some i := by
        cases hl : lastIndexOf '.' xs with
        | some i => exact ⟨i, rfl⟩
        | none => exact absurd ((lastIndexOf_eq_none_iff '.' xs).mp hl) (by simp [hxs])
      obtain ⟨i, hi⟩ := hsome
      simp only [jsFileExtension, lastIndexOf, hi] at ih ⊢
      simp only [afterLastDot, hxs, ite_true]
      simpa using ih
    · have hx : x = '.' := by
        rcases List.mem_cons.mp h with hc | hc
        · exact hc.symm
        · exact absurd hc hxs
      have hl : lastIndexOf '.' xs = none := (lastIndexOf_eq_none_iff '.' xs).mpr hxs
      simp [jsFileExtension, lastIndexOf, hl, hx, afterLastDot, hxs]

theorem dot_cons_mem_allowedExtensions (x : List Char) :
    ('.' :: x) ∈ allowedExtensions ↔ x ∈ specAllowedNames := by
  simp [allowedExtensions, specAllowedNames]

theorem char_toNat_ofNat {n : Nat} (h : n.isValidChar) : (Char.ofNat n).toNat = n := by
  unfold Char.ofNat
  rw [dif_pos h]
  rfl

theorem lowerChar_eq_dot_iff (c : Char) : lowerChar c = '.' ↔ c = '.' := by
  unfold lowerChar
  by_cases h : 65 ≤ c.toNat ∧ c.toNat ≤ 90
  · rw [if_pos h]
    constructor
    · intro he
      have hv : (c.toNat + 32).isValidChar := Or.inl (by omega)
      have := congrArg Char.toNat he
      rw [char_toNat_ofNat hv] at this
      have h46 : Char.toNat '.' = 46 := rfl
      omega
    · intro he
      subst he
      exact absurd h (by decide)
  · rw [if_neg h]

/-- Every entry of `allowedExtensions` contains a dot. -/
theorem dot_mem_of_mem_allowedExtensions {x : List Char}
    (h : x ∈ allowedExtensions) : '.' ∈ x := by
  simp only [allowedExtensions, List.mem_cons, List.not_mem_nil, or_false] at h
  rcases h with h | h | h | h <;> subst h <;> decide

theorem dot_mem_map_lowerChar_iff (l : List Char) :
    '.' ∈ l.map lowerChar ↔ '.' ∈ l := by
  rw [List.mem_map]
  constructor
  · rintro ⟨c, hc, he⟩
    rwa [(lowerChar_eq_dot_iff c).mp he] at hc
  · intro hc
    exact ⟨'.', hc, rfl⟩

/-- C4: a filename whose extension — the substring after the last dot, taken
case-insensitively — lies outside {mp3, wav, m4a, flac} is rejected with
`UnsupportedFormat` (whatever the size), and a filename whose extension lies in
that set (in any letter case) passes the extension check of
`handleFileChange`, i.e. its computed extension is in `allowedExtensions`. -/
theorem extension_check_c4
    (bad good : List Char) (szb : Nat)
    (hdb : '.' ∈ bad) (hdg : '.' ∈ good)
    (hbad : afterLastDot (bad.map lowerChar) ∉ specAllowedNames)
    (hgood : afterLastDot (good.map lowerChar) ∈ specAllowedNames) :
    gatekeeperVerdict (some ⟨bad, szb⟩) = .Rejected .UnsupportedFormat ∧
    jsFileExtension (good.map lowerChar) ∈ allowedExtensions := by
  have hdm : '.' ∈ bad.map lowerChar := (dot_mem_map_lowerChar_iff bad).mpr hdb
  have hdm' : '.' ∈ good.map lowerChar := (dot_mem_map_lowerChar_iff good).mpr hdg
  have hext : jsFileExtension (bad.map lowerChar) ∉ allowedExtensions := by
    intro hin
    rw [jsFileExtension_of_mem _ hdm] at hin
    exact hbad ((dot_cons_mem_allowedExtensions _).mp hin)
  constructor
  · simp [gatekeeperVerdict, hext]
  · rw [jsFileExtension_of_mem _ hdm']
    exact (dot_cons_mem_allowedExtensions _).mpr hgood

/-- Witness for `extension_check_c4`: `doc.pdf` is rejected as unsupported;
`A.MP3` (uppercase) passes the extension check. -/
theorem extension_check_c4_witness :
    gatekeeperVerdict (some ⟨['d', 'o', 'c', '.', 'p', 'd', 'f'], 10⟩) =
      .Rejected .UnsupportedFormat ∧
    jsFileExtension (['A', '.', 'M', 'P', '3'].map lowerChar) ∈ allowedExtensions :=
  extension_check_c4 ['d', 'o', 'c', '.', 'p', 'd', 'f'] ['A', '.', 'M', 'P', '3'] 10
    (by decide) (by decide) (by decide) (by decide)

/-- C3 counterexample: a file that is both oversize (25 MiB + 1 byte) and of a
disallowed extension (`doc.pdf`) is rejected, but with reason
`UnsupportedFormat`, not `TooLarge`, because the extension check runs first. -/
theorem size_check_c3_counterexample :
    (sizeLimit + 1 > 25 * 1024 * 1024) ∧
    gatekeeperVerdict (some ⟨['d', 'o', 'c', '.', 'p', 'd', 'f'], sizeLimit + 1⟩) ≠
      Verdict.Rejected .TooLarge := by
  decide

/-- C3 (amended): a file with an allowed extension and byte length strictly
above 25 × 1024 × 1024 is rejected with `TooLarge`; a file with an allowed
extension of exactly 25 × 1024 × 1024 bytes is `Accepted`. -/
theorem size_check_c3
    (f g : AudioFile)
    (hf : jsFileExtension (f.name.map lowerChar) ∈ allowedExtensions)
    (hg : jsFileExtension (g.name.map lowerChar) ∈ allowedExtensions)
    (hbig : f.size > sizeLimit)
    (hexact : g.size = sizeLimit) :
    gatekeeperVerdict (some f) = .Rejected .TooLarge ∧
    gatekeeperVerdict (some g) = .Accepted := by
  constructor
  · simp [gatekeeperVerdict, hf, hbig]
  · have : ¬ g.size > sizeLimit := by omega
    simp [gatekeeperVerdict, hg, this]

/-- Witness for `size_check_c3`: `a.mp3` at 25 MiB + 1 byte is `TooLarge`;
`a.mp3` at exactly 25 MiB is `Accepted`. -/
theorem size_check_c3_witness :
    gatekeeperVerdict (some ⟨['a', '.', 'm', 'p', '3'], sizeLimit + 1⟩) =
      .Rejected .TooLarge ∧
    gatekeeperVerdict (some ⟨['a', '.', 'm', 'p', '3'], sizeLimit⟩) = .Accepted :=
  size_check_c3 ⟨['a', '.', 'm', 'p', '3'], sizeLimit + 1⟩
    ⟨['a', '.', 'm', 'p', '3'], sizeLimit⟩
    (by decide) (by decide) (by decide) rfl

/-- C8: with no file attached the verdict is `Rejected NoFileProvided`; a file
that is both of a disallowed extension and oversize is rejected with
`UnsupportedFormat` — the extension check precedes the size check and the
first failing check determines the reason. -/
theorem check_order_c8
    (f : AudioFile)
    (hext : jsFileExtension (f.name.map lowerChar) ∉ allowedExtensions)
    (_hsize : f.size > sizeLimit) :
    gatekeeperVerdict none = .Rejected .NoFileProvided ∧
    gatekeeperVerdict (some f) = .Rejected .UnsupportedFormat := by
  refine ⟨rfl, ?_⟩
  simp [gatekeeperVerdict, hext]

/-- Witness for `check_order_c8` at `doc.pdf` of 25 MiB + 1 byte. -/
theorem check_order_c8_witness :
    gatekeeperVerdict none = .Rejected .NoFileProvided ∧
    gatekeeperVerdict (some ⟨['d', 'o', 'c', '.', 'p', 'd', 'f'], sizeLimit + 1⟩) =
      .Rejected .UnsupportedFormat :=
  check_order_c8 ⟨['d', 'o', 'c', '.', 'p', 'd', 'f'], sizeLimit + 1⟩
    (by decide) (by decide)

/-- C10: a filename with no dot at all is refused by `handleFileChange`: the
computed "extension" is the whole lowercased name (lastIndexOf returns -1,
substring clamps to 0), which can never be in the dot-prefixed
`allowedExtensions` list, so the error is set and the file state becomes
`none`; the verdict is `Rejected UnsupportedFormat`. -/
theorem dotless_name_c10
    (st : AppState) (name : List Char) (sz : Nat) (hdot : '.' ∉ name) :
    handleFileChange st (some ⟨name, sz⟩) =
      { st with error := unsupportedMsg, file := none } ∧
    jsFileExtension (name.map lowerChar) = name.map lowerChar ∧
    gatekeeperVerdict (some ⟨name, sz⟩) = .Rejected .UnsupportedFormat := by
  have hnm : '.' ∉ name.map lowerChar := fun hm =>
    hdot ((dot_mem_map_lowerChar_iff name).mp hm)
  have hje : jsFileExtension (name.map lowerChar) = name.map lowerChar := by
    unfold jsFileExtension
    rw [(lastIndexOf_eq_none_iff '.' (name.map lowerChar)).mpr hnm]
  have hext : jsFileExtension (name.map lowerChar) ∉ allowedExtensions := by
    rw [hje]
    exact fun hin => hnm (dot_mem_of_mem_allowedExtensions hin)
  refine ⟨?_, hje, ?_⟩
  · simp [handleFileChange, hext]
  · simp [gatekeeperVerdict, hext]

/-- Witness for `dotless_name_c10` at the dotless filename `mp3`. -/
theorem dotless_name_c10_witness :
    handleFileChange initState (some ⟨['m', 'p', '3'], 10⟩) =
      { initState with error := unsupportedMsg, file := none } ∧
    jsFileExtension (['m', 'p', '3'].map lowerChar) = ['m', 'p', '3'].map lowerChar ∧
    gatekeeperVerdict (some ⟨['m', 'p', '3'], 10⟩) = .Rejected .UnsupportedFormat :=
  dotless_name_c10 initState ['m', 'p', '3'] 10 (by decide)

/-! ## Result Normalizer

The backend (`backend/app.py`) is not among the provided source files, so the
Normalizer is modelled from the spec (§3, §4.2): an upstream payload is either
a parsed structure whose fields may each be absent or malformed (collapsed to
`none`), or raw unstructured text. -/

/-- Modelled from the spec: one upstream action item; each field is `none`
when the upstream AI payload omits or malforms it. -/
structure RawActionItem where
  task : Option String
  owner : Option String
  deadline : Option String
  priority : Option String
deriving DecidableEq, Repr

/-- Modelled from the spec: the structured upstream summarization payload;
each field is `none` when omitted or not of the expected type. -/
structure RawSummary where
  summary : Option String
  key_decisions : Option (List String)
  action_items : Option (List RawActionItem)
  next_steps : Option (List String)
  key_topics : Option (List String)
  total_decisions : Option Nat
  total_action_items : Option Nat
deriving DecidableEq, Repr

/-- Modelled from the spec: the raw summarization response — either parseable
as the expected structured shape, or plain unstructured text. -/
inductive UpstreamPayload
  | parsed (r : RawSummary)
  | unparsed (raw : String)
deriving DecidableEq, Repr

/-- One action item of the stable output contract (spec §3). -/
structure ActionItem where
  task : String
  owner : String
  deadline : String
  priority : String
deriving DecidableEq, Repr

/-- The `meetingMetrics` record of the stable output contract (spec §3). -/
structure MeetingMetrics where
  totalDecisions : Nat
  totalActionItems : Nat
  keyTopics : List String
deriving DecidableEq, Repr

/-- The `summary` record of the stable output contract (spec §3). -/
structure SummarySection where
  summary : String
  keyDecisions : List String
  actionItems : List ActionItem
  nextSteps : List String
  meetingMetrics : MeetingMetrics
deriving DecidableEq, Repr

/-- The stable output contract `SummaryResult` (spec §3). Every field is
present with a type-correct value by construction. -/
structure SummaryResult where
  transcript : String
  wordCount : Nat
  summary : SummarySection
deriving DecidableEq, Repr

/-- Modelled from the spec: `wordCount` is computed by splitting the
transcript on whitespace runs and counting non-empty tokens (§4.2). -/
def countWords (t : String) : Nat :=
  ((t.split Char.isWhitespace).filter (fun w => w ≠ "")).length

/-- Modelled from the spec: field-by-field defaulting of one action item,
substituting the empty string for each missing field (§4.2). -/
def normalizeActionItem (a : RawActionItem) : ActionItem :=
  { task := a.task.getD "", owner := a.owner.getD "",
    deadline := a.deadline.getD "", priority := a.priority.getD "" }

/-- Modelled from the spec: the Result Normalizer (§4.2). Field-by-field
defaulting on a parsed payload, with `totalDecisions`/`totalActionItems`
recomputed from the lists rather than read from
`total_decisions`/`total_action_items`; on an unparseable payload, the
fallback result carrying the raw text with empty lists and zero counts. -/
def normalizeSummary (transcript : String) (p : UpstreamPayload) : SummaryResult :=
  match p with
  | .parsed r =>
    let keyDecisions := r.key_decisions.getD []
    let actionItems := (r.action_items.getD []).map normalizeActionItem
    { transcript := transcript
      wordCount := countWords transcript
      summary :=
      { summary := r.summary.getD ""
        keyDecisions := keyDecisions
        actionItems := actionItems
        nextSteps := r.next_steps.getD []
        meetingMetrics :=
        { totalDecisions := keyDecisions.length
          totalActionItems := actionItems.length
          keyTopics := r.key_topics.getD [] } } }
  | .unparsed raw =>
    { transcript := transcript
      wordCount := countWords transcript
      summary :=
      { summary := raw
        keyDecisions := []
        actionItems := []
        nextSteps := []
        meetingMetrics :=
        { totalDecisions := 0, totalActionItems := 0, keyTopics := [] } } }

/-- C1: the Normalizer substitutes the documented default for every field the
upstream payload omits: each output field equals the upstream value when
present and the default otherwise, and in particular a payload whose
`next_steps` field is missing yields `nextSteps = []` (the Normalizer is a
total function, so no error is possible). -/
theorem normalizer_defaults_c1 (t : String) (r : RawSummary)
    (h : r.next_steps = none) :
    (normalizeSummary t (.parsed r)).summary.nextSteps = [] ∧
    (normalizeSummary t (.parsed r)).summary.summary = r.summary.getD "" ∧
    (normalizeSummary t (.parsed r)).summary.keyDecisions = r.key_decisions.getD [] ∧
    (normalizeSummary t (.parsed r)).summary.actionItems =
      (r.action_items.getD []).map normalizeActionItem ∧
    (normalizeSummary t (.parsed r)).summary.meetingMetrics.keyTopics =
      r.key_topics.getD [] := by
  refine ⟨?_, rfl, rfl, rfl, rfl⟩
  simp [normalizeSummary, h]

/-- Witness for `normalizer_defaults_c1`: a payload with `next_steps` missing
(and some other fields present) yields `nextSteps = []` and the defaulted
fields. -/
theorem normalizer_defaults_c1_witness :
    (normalizeSummary "We decided to launch Friday."
      (.parsed { summary := some "Launch planned.", key_decisions := some ["Launch Friday"],
                 action_items := none, next_steps := none,
                 key_topics := some ["launch"], total_decisions := some 99,
                 total_action_items := some 99 })).summary.nextSteps = [] ∧
    (normalizeSummary "We decided to launch Friday."
      (.parsed { summary := some "Launch planned.", key_decisions := some ["Launch Friday"],
                 action_items := none, next_steps := none,
                 key_topics := some ["launch"], total_decisions := some 99,
                 total_action_items := some 99 })).summary.summary = "Launch planned." ∧
    (normalizeSummary "We decided to launch Friday."
      (.parsed { summary := some "Launch planned.", key_decisions := some ["Launch Friday"],
                 action_items := none, next_steps := none,
                 key_topics := some ["launch"], total_decisions := some 99,
                 total_action_items := some 99 })).summary.keyDecisions = ["Launch Friday"] ∧
    (normalizeSummary "We decided to launch Friday."
      (.parsed { summary := some "Launch planned.", key_decisions := some ["Launch Friday"],
                 action_items := none, next_steps := none,
                 key_topics := some ["launch"], total_decisions := some 99,
                 total_action_items := some 99 })).summary.actionItems = [] ∧
    (normalizeSummary "We decided to launch Friday."
      (.parsed { summary := some "Launch planned.", key_decisions := some ["Launch Friday"],
                 action_items := none, next_steps := none,
                 key_topics := some ["launch"], total_decisions := some 99,
                 total_action_items := some 99 })).summary.meetingMetrics.keyTopics =
      ["launch"] :=
  normalizer_defaults_c1 "We decided to launch Friday."
    { summary := some "Launch planned.", key_decisions := some ["Launch Friday"],
      action_items := none, next_steps := none,
      key_topics := some ["launch"], total_decisions := some 99,
      total_action_items := some 99 } rfl

/-- C2: `meetingMetrics.totalDecisions` and `totalActionItems` always equal
the lengths of `keyDecisions` and `actionItems`, and the output does not
depend on the upstream `total_decisions`/`total_action_items` fields at
all. -/
theorem metrics_recomputed_c2 (t : String) (p : UpstreamPayload)
    (r : RawSummary) (n m : Option Nat) :
    ((normalizeSummary t p).summary.meetingMetrics.totalDecisions =
      (normalizeSummary t p).summary.keyDecisions.length ∧
     (normalizeSummary t p).summary.meetingMetrics.totalActionItems =
      (normalizeSummary t p).summary.actionItems.length) ∧
    normalizeSummary t
        (.parsed { r with total_decisions := n, total_action_items := m }) =
      normalizeSummary t (.parsed r) := by
  refine ⟨?_, rfl⟩
  cases p <;> simp [normalizeSummary]

/-- C5: on a payload that is plain unstructured text, the Normalizer output
carries the raw text verbatim as `summary.summary`, all list fields empty and
both counts zero — and, being a total function, it never raises. -/
theorem unparsed_fallback_c5 (t raw : String) :
    (normalizeSummary t (.unparsed raw)).summary.summary = raw ∧
    (normalizeSummary t (.unparsed raw)).summary.keyDecisions = [] ∧
    (normalizeSummary t (.unparsed raw)).summary.actionItems = [] ∧
    (normalizeSummary t (.unparsed raw)).summary.nextSteps = [] ∧
    (normalizeSummary t (.unparsed raw)).summary.meetingMetrics.keyTopics = [] ∧
    (normalizeSummary t (.unparsed raw)).summary.meetingMetrics.totalDecisions = 0 ∧
    (normalizeSummary t (.unparsed raw)).summary.meetingMetrics.totalActionItems = 0 :=
  ⟨rfl, rfl, rfl, rfl, rfl, rfl, rfl⟩

/-! ## Server request lifecycle

The backend is not among the provided source files; the request lifecycle of
`POST /api/upload` is modelled from the spec (§2, §4.1, §6, §7): validate,
stage to a temporary location on acceptance, run the two external AI calls,
shape the response, delete the staged file on every exit path. -/

/-- A filesystem action of the request handler on the transient upload
directory. -/
inductive FsOp
  | stage (tmp : List Char)
  | delete (tmp : List Char)
deriving DecidableEq, Repr

/-- An external AI service consumed over the network (spec §6). -/
inductive AiService
  | transcription
  | summarization
deriving DecidableEq, Repr

/-- Modelled from the spec: how the downstream calls of one accepted request
turn out — both succeed, the speech provider fails (§7
`UpstreamTranscriptionError`), or an exception escapes the downstream AI
calls (§4.1). -/
inductive Outcome
  | allOk (transcript : String) (payload : UpstreamPayload)
  | transcriptionFailed
  | downstreamException
deriving DecidableEq, Repr

/-- The parts of the HTTP response the claims inspect: status code, `success`
flag, optional `error` message. -/
structure ServerResponse where
  status : Nat
  success : Bool
  error : Option String
deriving DecidableEq, Repr

/-- One processed request: the response together with the filesystem actions
and external AI calls it performed, in order. -/
structure ServerRun where
  resp : ServerResponse
  fsOps : List FsOp
  aiCalls : List AiService
deriving DecidableEq, Repr

/-- The user-facing message of a rejection (spec §7: validation errors are
reported to the user immediately). -/
def reasonMessage : RejectReason → String
  | .UnsupportedFormat => "Unsupported file format"
  | .TooLarge => "File too large"
  | .NoFileProvided => "No file provided"

/-- Modelled from the spec: the `POST /api/upload` handler (`backend/app.py`
is not under src/). The Gatekeeper verdict is computed before anything else;
on rejection a 200 body with `success = false` and an error message is
returned, nothing is staged and no AI call is made (§4.1, §7); on acceptance
the file is staged, transcription and then summarization run, a 200 body is
returned (`success = true` only when both calls succeed, §6), and the staged
file is deleted on every exit path (§4.1). -/
def processUpload (req : Option AudioFile) (tmp : List Char)
    (outcome : Outcome) : ServerRun :=
  match gatekeeperVerdict req with
  | .Rejected r =>
    { resp := { status := 200, success := false, error := some (reasonMessage r) }
      fsOps := []
      aiCalls := [] }
  | .Accepted =>
    match outcome with
    | .allOk _ _ =>
      { resp := { status := 200, success := true, error := none }
        fsOps := [.stage tmp, .delete tmp]
        aiCalls := [.transcription, .summarization] }
    | .transcriptionFailed =>
      { resp := { status := 200, success := false, error := some "Processing failed" }
        fsOps := [.stage tmp, .delete tmp]
        aiCalls := [.transcription] }
    | .downstreamException =>
      { resp := { status := 200, success := false, error := some "Processing failed" }
        fsOps := [.stage tmp, .delete tmp]
        aiCalls := [.transcription, .summarization] }

/-- The staged files still present after a list of filesystem actions ran in
order. -/
def remainingStaged (ops : List FsOp) : List (List Char) :=
  ops.foldl
    (fun acc op =>
      match op with
      | .stage n => acc ++ [n]
      | .delete n => acc.filter (fun x => x ≠ n))
    []

/-- C6: no request leaves a staged temporary file behind — after the
filesystem actions of any request (success, validation failure, or downstream
failure/exception) the set of staged-but-not-deleted files is empty. -/
theorem cleanup_c6 (req : Option AudioFile) (tmp : List Char) (oc : Outcome) :
    remainingStaged (processUpload req tmp oc).fsOps = [] := by
  unfold processUpload
  cases gatekeeperVerdict req with
  | Rejected r => simp [remainingStaged]
  | Accepted => cases oc <;> simp [remainingStaged, List.filter]

/-! ## Client event machine

A small machine over the React component state, whose events are the two user
interactions of `App.jsx`: choosing a file (`onChange` → `handleFileChange`)
and clicking upload (`onClick` → `handleUpload`). The second component of a
step is the file posted to `/api/upload`, when a request is issued. -/

/-- A user interaction with the form. -/
inductive UiEvent
  | select (f : Option AudioFile)
  | upload
deriving DecidableEq, Repr

/-- One interaction step: the next component state and the file posted to
the backend, if a request was issued. -/
def step (st : AppState) (e : UiEvent) : AppState × Option AudioFile :=
  match e with
  | .select sel => (handleFileChange st sel, none)
  | .upload => handleUploadStart st

/-- Run a sequence of interactions, collecting every file posted to the
backend. -/
def run : AppState → List UiEvent → AppState × List AudioFile
  | st, [] => (st, [])
  | st, e :: es =>
    let p := step st e
    let q := run p.1 es
    (q.1, p.2.toList ++ q.2)

/-- The stored file, when present, always passed validation. -/
def fileInvariant (st : AppState) : Prop :=
  ∀ f, st.file = some f → gatekeeperVerdict (some f) = .Accepted

theorem handleFileChange_fileInvariant (st : AppState) (sel : Option AudioFile)
    (h : fileInvariant st) : fileInvariant (handleFileChange st sel) := by
  cases sel with
  | none => exact h
  | some g =>
    intro f hf
    unfold handleFileChange at hf
    by_cases hext : jsFileExtension (g.name.map lowerChar) ∉ allowedExtensions
    · simp only [hext, ite_true] at hf
      simp at hf
    · by_cases hsz : g.size > sizeLimit
      · simp only [hext, ite_false, hsz, ite_true] at hf
        simp at hf
      · simp only [hext, ite_false, hsz] at hf
        simp at hf
        subst hf
        simp [gatekeeperVerdict, not_not.mp hext, hsz]

theorem run_calls_accepted :
    (evs : List UiEvent) → (st : AppState) → fileInvariant st →
      ∀ f, f ∈ (run st evs).2 → gatekeeperVerdict (some f) = .Accepted
  | [], _, _, f, hf => by simp [run] at hf
  | e :: es, st, hinv, f, hf => by
    cases e with
    | select sel =>
      simp only [run, step, Option.toList, List.nil_append] at hf
      exact run_calls_accepted es (handleFileChange st sel)
        (handleFileChange_fileInvariant st sel hinv) f hf
    | upload =>
      cases hfile : st.file with
      | none =>
        simp only [run, step, handleUploadStart, hfile, Option.toList,
          List.nil_append] at hf
        refine run_calls_accepted es _ ?_ f hf
        intro g hg
        simp at hg
      | some g =>
        simp only [run, step, handleUploadStart, hfile, Option.toList,
          List.cons_append, List.nil_append, List.mem_cons] at hf
        rcases hf with hf | hf
        · subst hf
          exact hinv f hfile
        · refine run_calls_accepted es _ ?_ f hf
          intro g' hg'
          simp at hg'
          subst hg'
          exact hinv g hfile

/-- C7: every file the client ever posts to the backend passed validation
(`Accepted`), starting from the initial state; and on the server side a
request whose verdict is not `Accepted` makes no external AI call and is
answered with an error reported to the user. -/
theorem no_ai_before_accepted_c7
    (evs : List UiEvent) (f : AudioFile)
    (hmem : f ∈ (run initState evs).2)
    (req : Option AudioFile) (tmp : List Char) (oc : Outcome)
    (hrej : gatekeeperVerdict req ≠ .Accepted) :
    gatekeeperVerdict (some f) = .Accepted ∧
    (processUpload req tmp oc).aiCalls = [] ∧
    (processUpload req tmp oc).resp.success = false ∧
    (processUpload req tmp oc).resp.error.isSome = true := by
  have hinit : fileInvariant initState := by
    intro g hg
    simp [initState] at hg
  refine ⟨run_calls_accepted evs initState hinit f hmem, ?_⟩
  unfold processUpload
  cases h : gatekeeperVerdict req with
  | Accepted => exact absurd h hrej
  | Rejected r => simp

/-- Witness for `no_ai_before_accepted_c7`: selecting `a.mp3` then clicking
upload posts an accepted file; a request with no file attached triggers no AI
call and an error response. -/
theorem no_ai_before_accepted_c7_witness :
    gatekeeperVerdict (some ⟨['a', '.', 'm', 'p', '3'], 10⟩) = .Accepted ∧
    (processUpload none ['t', 'm', 'p'] .transcriptionFailed).aiCalls = [] ∧
    (processUpload none ['t', 'm', 'p'] .transcriptionFailed).resp.success = false ∧
    (processUpload none ['t', 'm', 'p'] .transcriptionFailed).resp.error.isSome = true :=
  no_ai_before_accepted_c7
    [.select (some ⟨['a', '.', 'm', 'p', '3'], 10⟩), .upload]
    ⟨['a', '.', 'm', 'p', '3'], 10⟩ (by decide)
    none ['t', 'm', 'p'] .transcriptionFailed (by decide)

/-- C9: handled failures are signalled inside an HTTP 200 body — whenever the
server response has `success = false` its status is still 200 and it carries
an error message (and every response of the handler has status 200); and the
client, on any body with `success = false`, renders no result and displays
the body's error message, defaulting to "Processing failed". -/
theorem failure_flag_c9
    (req : Option AudioFile) (tmp : List Char) (oc : Outcome)
    (hfail : (processUpload req tmp oc).resp.success = false)
    (st : AppState) (g : AudioFile) (hf : st.file = some g)
    (resp : ClientResponse) (hr : resp.success = false) :
    (processUpload req tmp oc).resp.status = 200 ∧
    (processUpload req tmp oc).resp.error.isSome = true ∧
    (handleUpload st resp).result = none ∧
    (handleUpload st resp).error = jsOrElse resp.error "Processing failed" := by
  refine ⟨?_, ?_, ?_, ?_⟩
  · unfold processUpload
    cases h : gatekeeperVerdict req with
    | Accepted => cases oc <;> simp
    | Rejected r => simp
  · unfold processUpload at hfail ⊢
    cases h : gatekeeperVerdict req with
    | Accepted =>
      rw [h] at hfail
      cases oc <;> simp_all
    | Rejected r => simp
  · unfold handleUpload handleUploadStart
    rw [hf]
    simp [handleUploadResponse, hr]
  · unfold handleUpload handleUploadStart
    rw [hf]
    simp [handleUploadResponse, hr]

/-- Witness for `failure_flag_c9`: a rejected no-file request is answered
200/success-false with a message, and the client on a failing body shows the
message and keeps no result. -/
theorem failure_flag_c9_witness :
    (processUpload none ['t', 'm', 'p'] .downstreamException).resp.status = 200 ∧
    (processUpload none ['t', 'm', 'p'] .downstreamException).resp.error.isSome = true ∧
    (handleUpload { file := some ⟨['a', '.', 'm', 'p', '3'], 10⟩, loading := false,
                    result := none, error := "" }
        { success := false, error := some "Processing failed" }).result = none ∧
    (handleUpload { file := some ⟨['a', '.', 'm', 'p', '3'], 10⟩, loading := false,
                    result := none, error := "" }
        { success := false, error := some "Processing failed" }).error =
      jsOrElse (some "Processing failed") "Processing failed" :=
  failure_flag_c9 none ['t', 'm', 'p'] .downstreamException (by decide)
    { file := some ⟨['a', '.', 'm', 'p', '3'], 10⟩, loading := false,
      result := none, error := "" }
    ⟨['a', '.', 'm', 'p', '3'], 10⟩ rfl
    { success := false, error := some "Processing failed" } rfl

end MeetingSummarizer
